import Mathlib

/-!
# IoTEdgeSense — verification of the sensor abstraction layer and data pipeline

Shallow embedding of the sensor data model, bus drivers, filter stage and
pipeline orchestrator of the IoTEdgeSense firmware.  The repository ships the
interface headers (`sensor_base.h`, `i2c_sensor.h`, `spi_sensor.h`,
`uart_sensor.h`, `gpio_sensor.h`, `data_filter.h`, `data_processor.h`); the
implementation translation units are not part of the source tree, so the
operation bodies below are modelled from the specification, faithful to the
declared signatures.  Float values are embedded as exact rationals.
-/

namespace IoTEdge

namespace Sensors

/-- Modelled from the spec: the externally defined error-code enumeration
(`system/error_handler.h` is not in the source tree); §7 lists the taxonomy
NOT_INITIALIZED, RESOURCE_UNAVAILABLE, TRANSFER_FAILED, TIMEOUT,
INVALID_PARAMETER, CALIBRATION_FAILED, SELF_TEST_FAILED, plus a no-error
value. -/
inductive ErrorCode where
  | NONE
  | NOT_INITIALIZED
  | RESOURCE_UNAVAILABLE
  | TRANSFER_FAILED
  | TIMEOUT
  | INVALID_PARAMETER
  | CALIBRATION_FAILED
  | SELF_TEST_FAILED
deriving DecidableEq, Repr

/-- Sensor lifecycle states, from `SensorState` in `Sensor_Base.h`. -/
inductive SensorState where
  | UNINITIALIZED
  | INITIALIZED
  | RUNNING
  | SLEEPING
  | ERROR
deriving DecidableEq, Repr

/-- Canonical sensor reading, from `SensorReading` in `Sensor_Base.h`:
timestamp in milliseconds (`uint64_t`), ordered measured components
(`std::vector<float>`, embedded as rationals), unit label, sensor identifier
(`uint8_t`), validity flag. -/
structure SensorReading where
  timestamp : Nat
  values : List ℚ
  unit : String
  sensorId : Nat
  valid : Bool
deriving DecidableEq, Repr

end Sensors

namespace Data

open Sensors

/-! ## Compression (`DataProcessor::compress` / `DataProcessor::decompress`)

Modelled from the spec: the bodies of `DataProcessor::compress` and
`DataProcessor::decompress` (declared in `data_processor.h`) are not in the
source tree.  §4.4 requires a lossless, reversible string encoding whose wire
format is otherwise internal and unconstrained; we model it as a
character-level self-delimiting encoding of every field of every reading. -/

/-- Self-delimiting encoding of a natural number. -/
def encodeNat (n : Nat) : List Char :=
  List.replicate n 'x' ++ ['.']

/-- Parse back a natural number, returning the remaining characters. -/
def parseNat : List Char → Option (Nat × List Char)
  | [] => none
  | c :: rest =>
    if c = '.' then some (0, rest)
    else if c = 'x' then
      match parseNat rest with
      | some (n, r) => some (n + 1, r)
      | none => none
    else none

/-- Self-delimiting encoding of an integer (sign then magnitude). -/
def encodeInt (i : Int) : List Char :=
  if i < 0 then '-' :: encodeNat i.natAbs else '+' :: encodeNat i.natAbs

/-- Parse back an integer. -/
def parseInt : List Char → Option (Int × List Char)
  | [] => none
  | c :: rest =>
    if c = '-' then
      match parseNat rest with
      | some (n, r) => some (-(n : Int), r)
      | none => none
    else if c = '+' then
      match parseNat rest with
      | some (n, r) => some ((n : Int), r)
      | none => none
    else none

/-- Self-delimiting encoding of a rational value (numerator, denominator). -/
def encodeRat (q : ℚ) : List Char :=
  encodeInt q.num ++ encodeNat q.den

/-- Parse back a rational value. -/
def parseRat (cs : List Char) : Option (ℚ × List Char) :=
  match parseInt cs with
  | some (n, r1) =>
    match parseNat r1 with
    | some (d, r2) => some ((n : ℚ) / (d : ℚ), r2)
    | none => none
  | none => none

/-- Consume exactly `n` characters. -/
def parseTake : Nat → List Char → Option (List Char × List Char)
  | 0, cs => some ([], cs)
  | _ + 1, [] => none
  | n + 1, c :: cs =>
    match parseTake n cs with
    | some (taken, r) => some (c :: taken, r)
    | none => none

/-- Length-prefixed encoding of a string. -/
def encodeStr (s : String) : List Char :=
  encodeNat s.data.length ++ s.data

/-- Parse back a string. -/
def parseStr (cs : List Char) : Option (String × List Char) :=
  match parseNat cs with
  | some (n, r1) =>
    match parseTake n r1 with
    | some (taken, r2) => some (String.mk taken, r2)
    | none => none
  | none => none

/-- Concatenated encoding of a list of rational values. -/
def encodeRatList : List ℚ → List Char
  | [] => []
  | q :: qs => encodeRat q ++ encodeRatList qs

/-- Parse back exactly `n` rational values. -/
def parseRats : Nat → List Char → Option (List ℚ × List Char)
  | 0, cs => some ([], cs)
  | n + 1, cs =>
    match parseRat cs with
    | some (q, r1) =>
      match parseRats n r1 with
      | some (qs, r2) => some (q :: qs, r2)
      | none => none
    | none => none

/-- Encoding of one reading: timestamp, value count, values, unit,
identifier, validity flag. -/
def encodeReading (r : SensorReading) : List Char :=
  encodeNat r.timestamp ++ encodeNat r.values.length ++ encodeRatList r.values ++
    encodeStr r.unit ++ encodeNat r.sensorId ++ (if r.valid then ['t'] else ['f'])

/-- Parse back one reading. -/
def parseReading (cs : List Char) : Option (SensorReading × List Char) :=
  match parseNat cs with
  | some (ts, r1) =>
    match parseNat r1 with
    | some (n, r2) =>
      match parseRats n r2 with
      | some (vals, r3) =>
        match parseStr r3 with
        | some (u, r4) =>
          match parseNat r4 with
          | some (sid, r5) =>
            match r5 with
            | [] => none
            | c :: r6 =>
              if c = 't' then some (⟨ts, vals, u, sid, true⟩, r6)
              else if c = 'f' then some (⟨ts, vals, u, sid, false⟩, r6)
              else none
          | none => none
        | none => none
      | none => none
    | none => none
  | none => none

/-- Concatenated encoding of a list of readings. -/
def encodeReadingList : List SensorReading → List Char
  | [] => []
  | r :: rs => encodeReading r ++ encodeReadingList rs

/-- Parse back exactly `n` readings. -/
def parseReadings : Nat → List Char → Option (List SensorReading × List Char)
  | 0, cs => some ([], cs)
  | n + 1, cs =>
    match parseReading cs with
    | some (r, r1) =>
      match parseReadings n r1 with
      | some (rs, r2) => some (r :: rs, r2)
      | none => none
    | none => none

/-- Model of `DataProcessor::compress`: count-prefixed encoding of the batch, as a
string. -/
def compress (rs : List SensorReading) : String :=
  String.mk (encodeNat rs.length ++ encodeReadingList rs)

/-- Model of `DataProcessor::decompress`: parse the count then the readings; a
malformed input yields an empty batch. -/
def decompress (s : String) : List SensorReading :=
  match parseNat s.data with
  | some (n, r) =>
    match parseReadings n r with
    | some (rs, _) => rs
    | none => []
  | none => []


/-! ## Filter stage (`data_filter.h`)

Modelled from the spec: the bodies of the filter classes declared in
`data_filter.h` are not in the source tree.  §4.3 gives the common filter
contract and the behavior of MovingAverage, Threshold, Delta and Median.
Per-identifier history (`std::map` keyed by `uint8_t` sensor id in the
declarations) is embedded as a total function from identifiers, empty by
default. -/

/-- Componentwise mean of the buffered value-vectors over `dim` components
(spec §4.3, MovingAverage: output equals the componentwise mean over
currently buffered samples). -/
def meanVec (samples : List (List ℚ)) (dim : Nat) : List ℚ :=
  (List.range dim).map
    (fun j => (samples.map (fun v => v.getD j 0)).sum / (samples.length : ℚ))

/-- All buffered vectors share dimension `dim` (spec §4.3: a dimension
mismatch invalidates the emitted reading rather than crashing). -/
def sameDims (samples : List (List ℚ)) (dim : Nat) : Bool :=
  samples.all (fun v => v.length == dim)

/-- Model of `MovingAverageFilter` state: window size and per-identifier bounded FIFO
of raw value-vectors (oldest first), from `data_filter.h` members
`mWindowSize` and `mHistory`. -/
structure MovingAverageFilter where
  windowSize : Nat
  history : Nat → List (List ℚ)

/-- Fresh moving-average filter (`MovingAverageFilter` constructor:
empty history). -/
def MovingAverageFilter.make (w : Nat) : MovingAverageFilter :=
  ⟨w, fun _ => []⟩

/-- Process one reading: push its values into the identifier's FIFO, slide
the window down to `windowSize`, and emit the componentwise mean of the
buffered samples (invalid reading on dimension mismatch). -/
def MovingAverageFilter.applyOne (f : MovingAverageFilter) (r : SensorReading) :
    MovingAverageFilter × SensorReading :=
  let buf := f.history r.sensorId ++ [r.values]
  let buf := buf.drop (buf.length - f.windowSize)
  let out :=
    if sameDims buf r.values.length then
      { r with values := meanVec buf r.values.length }
    else
      { r with valid := false }
  (⟨f.windowSize, fun i => if i = r.sensorId then buf else f.history i⟩, out)

/-- Model of `MovingAverageFilter::apply`: process a batch in order, threading the
per-identifier state. -/
def MovingAverageFilter.applyBatch (f : MovingAverageFilter) :
    List SensorReading → MovingAverageFilter × List SensorReading
  | [] => (f, [])
  | r :: rs =>
    let p := f.applyOne r
    let q := p.fst.applyBatch rs
    (q.fst, p.snd :: q.snd)

/-- An IEEE-style float threshold value: minus infinity, a finite value, or
plus infinity (the `ThresholdFilter` constructor defaults in
`data_filter.h` are `-std::numeric_limits<float>::infinity()` and
`+infinity`). -/
inductive FloatVal where
  | negInf
  | finite (q : ℚ)
  | posInf
deriving DecidableEq, Repr

/-- IEEE comparison on non-NaN float values. -/
def FloatVal.le : FloatVal → FloatVal → Bool
  | .negInf, _ => true
  | _, .posInf => true
  | .finite a, .finite b => decide (a ≤ b)
  | _, _ => false

/-- Model of `ThresholdFilter` state, from `data_filter.h` members `mMinThreshold`
and `mMaxThreshold`; the filter keeps no per-identifier history. -/
structure ThresholdFilter where
  minThreshold : FloatVal
  maxThreshold : FloatVal
deriving DecidableEq, Repr

/-- Model of `ThresholdFilter` constructed with the default arguments: thresholds
are minus and plus infinity. -/
def ThresholdFilter.default : ThresholdFilter :=
  ⟨.negInf, .posInf⟩

/-- Model of `ThresholdFilter::isWithinThresholds`: the value lies in
`[minThreshold, maxThreshold]`. -/
def ThresholdFilter.isWithinThresholds (f : ThresholdFilter) (v : ℚ) : Bool :=
  f.minThreshold.le (.finite v) && (FloatVal.finite v).le f.maxThreshold

/-- Model of `ThresholdFilter::apply`: drop any reading with any component outside
the thresholds; surviving readings are not mutated (spec §4.3). -/
def ThresholdFilter.apply (f : ThresholdFilter) (readings : List SensorReading) :
    List SensorReading :=
  readings.filter (fun r => r.values.all f.isWithinThresholds)

/-- Model of `DeltaFilter` state: minimum change and per-identifier last accepted
value-vector, from `data_filter.h` members `mMinDelta` and `mLastValues`. -/
structure DeltaFilter where
  minDelta : ℚ
  lastValues : Nat → Option (List ℚ)

/-- Fresh delta filter (`DeltaFilter` constructor: empty last-value map). -/
def DeltaFilter.make (d : ℚ) : DeltaFilter :=
  ⟨d, fun _ => none⟩

/-- Model of `DeltaFilter::hasChangedEnough`: true when no value was ever accepted
for the identifier, or some component's absolute difference from the last
accepted vector exceeds `minDelta` (spec §4.3). -/
def DeltaFilter.hasChangedEnough (f : DeltaFilter) (r : SensorReading) : Bool :=
  match f.lastValues r.sensorId with
  | none => true
  | some last =>
    (List.zipWith (fun a b => |a - b|) r.values last).any
      (fun d => decide (f.minDelta < d))

/-- Process one reading: emit it and record its values as last accepted
exactly when it changed enough; otherwise drop it and keep the state. -/
def DeltaFilter.applyOne (f : DeltaFilter) (r : SensorReading) :
    DeltaFilter × List SensorReading :=
  if f.hasChangedEnough r then
    (⟨f.minDelta, fun i => if i = r.sensorId then some r.values else f.lastValues i⟩, [r])
  else
    (f, [])

/-- Model of `DeltaFilter::apply`: process a batch in order, threading the
per-identifier state. -/
def DeltaFilter.applyBatch (f : DeltaFilter) :
    List SensorReading → DeltaFilter × List SensorReading
  | [] => (f, [])
  | r :: rs =>
    let p := f.applyOne r
    let q := p.fst.applyBatch rs
    (q.fst, p.snd ++ q.snd)

/-- Model of `MedianFilter::calculateMedianValue`: sort the samples; odd count takes
the middle element, even count averages the two middle elements (matches
the spec example where the median of the two buffered samples 1 and 5
is 3). -/
def calculateMedianValue (values : List ℚ) : ℚ :=
  let s := values.insertionSort (fun a b => a ≤ b)
  let n := s.length
  if n % 2 = 1 then s.getD (n / 2) 0
  else (s.getD (n / 2 - 1) 0 + s.getD (n / 2) 0) / 2

/-- Componentwise median of the buffered value-vectors over `dim`
components (spec §4.3, Median). -/
def medianVec (samples : List (List ℚ)) (dim : Nat) : List ℚ :=
  (List.range dim).map
    (fun j => calculateMedianValue (samples.map (fun v => v.getD j 0)))

/-- Model of `MedianFilter` state: window size and per-identifier bounded FIFO, from
`data_filter.h` members `mWindowSize` and `mHistory`. -/
structure MedianFilter where
  windowSize : Nat
  history : Nat → List (List ℚ)

/-- Model of `MedianFilter` construction: even window sizes are rejected with
INVALID_PARAMETER (spec §4.3 and §9); odd sizes yield a fresh filter. -/
def MedianFilter.make (w : Nat) : Except ErrorCode MedianFilter :=
  if w % 2 = 0 then .error .INVALID_PARAMETER
  else .ok ⟨w, fun _ => []⟩

/-- Process one reading: same sliding-window bookkeeping as the moving
average, emitting the componentwise median of the buffered samples. -/
def MedianFilter.applyOne (f : MedianFilter) (r : SensorReading) :
    MedianFilter × SensorReading :=
  let buf := f.history r.sensorId ++ [r.values]
  let buf := buf.drop (buf.length - f.windowSize)
  let out :=
    if sameDims buf r.values.length then
      { r with values := medianVec buf r.values.length }
    else
      { r with valid := false }
  (⟨f.windowSize, fun i => if i = r.sensorId then buf else f.history i⟩, out)

/-- Model of `MedianFilter::apply`: process a batch in order, threading the
per-identifier state. -/
def MedianFilter.applyBatch (f : MedianFilter) :
    List SensorReading → MedianFilter × List SensorReading
  | [] => (f, [])
  | r :: rs =>
    let p := f.applyOne r
    let q := p.fst.applyBatch rs
    (q.fst, p.snd :: q.snd)

/-! ## Aggregation (`DataProcessor::aggregate`)

Modelled from the spec: the body of `DataProcessor::aggregate` (declared in
`data_processor.h` with return type `Sensors::SensorReading`) is not in the
source tree.  §4.4: readings sharing an identifier are collapsed into one
reading by the chosen method; an unrecognized method is an error result that
leaves the input untouched (the input batch is taken by const reference, and
the model is a pure function of it); the data-model invariant of §3 excludes
`valid=false` readings from aggregation; a dimensionality or unit mismatch
skips the aggregation.  The declared single-reading return type means one
call collapses one identifier group, and a failed result is a reading with
`valid=false`. -/

/-- Aggregation methods accepted by `DataProcessor::aggregate`
(`data_processor.h` documents avg, min, max, sum). -/
def recognizedMethods : List String := ["avg", "min", "max", "sum"]

/-- Minimum of a column of samples. -/
def minList : List ℚ → ℚ
  | [] => 0
  | q :: qs => qs.foldl min q

/-- Maximum of a column of samples. -/
def maxList : List ℚ → ℚ
  | [] => 0
  | q :: qs => qs.foldl max q

/-- Collapse the value-vectors componentwise over `dim` components with the
chosen method. -/
def combineValues (method : String) (vs : List (List ℚ)) (dim : Nat) : List ℚ :=
  (List.range dim).map (fun j =>
    let col := vs.map (fun v => v.getD j 0)
    if method = "avg" then col.sum / (vs.length : ℚ)
    else if method = "min" then minList col
    else if method = "max" then maxList col
    else col.sum)

/-- The failed-result reading (`valid=false`; the default `SensorReading`
constructor in `Sensor_Base.h`). -/
def invalidReading : SensorReading :=
  ⟨0, [], "", 0, false⟩

/-- Model of `DataProcessor::aggregate`: collapse the valid readings of the batch —
which must share one identifier, unit and dimensionality — into one reading
by `method`; an unrecognized method, empty group or mismatched group yields
the failed result. -/
def aggregate (readings : List SensorReading) (method : String) : SensorReading :=
  if method ∈ recognizedMethods then
    match readings.filter (fun r => r.valid) with
    | [] => invalidReading
    | r0 :: tl =>
      if (r0 :: tl).all (fun r =>
          r.sensorId == r0.sensorId && r.unit == r0.unit &&
            r.values.length == r0.values.length) then
        ⟨((r0 :: tl).map (fun r => r.timestamp)).foldl max 0,
          combineValues method ((r0 :: tl).map (fun r => r.values)) r0.values.length,
          r0.unit, r0.sensorId, true⟩
      else invalidReading
  else invalidReading

end Data

namespace Sensors

/-! ## Bus drivers

Modelled from the spec: the bodies of the driver classes declared in
`12c_sensor.h`, `spi_sensor.h`, `uart_sensor.h` and `gpio_sensor.h` are not
in the source tree.  §4.2: every public I/O operation rejects calls before
`initialize` succeeded with NOT_INITIALIZED, without touching hardware.
Each driver state carries the `SensorBase` fields (`mState`, `mLastError`)
and an explicit trace `hw` of interactions performed on the underlying
resource handle; an operation that leaves `hw` unchanged touched no
hardware.  Abstract hardware behavior (success and response data) comes
from an environment argument. -/

/-- Interaction recorded against a bus resource handle. -/
inductive BusEvent where
  | i2cWrite (reg d : Nat)
  | i2cRead (reg : Nat)
  | i2cBurst (reg len : Nat)
  | spiAssertCS
  | spiBytes (tx : List Nat)
  | spiDeassertCS
  | uartTx (bytes : List Nat)
  | uartRx (n : Nat)
  | uartFlush
  | gpioConfig (pin : Nat)
  | gpioWrite (pin : Nat) (v : Bool)
  | gpioRead (pin : Nat)
deriving DecidableEq, Repr

/-- Abstract bus environment: whether the hardware transaction succeeds,
and the byte it returns for a given address/offset. -/
structure BusEnv where
  ok : Bool
  data : Nat → Nat

/-- Model of `I2CSensor` state, from `12c_sensor.h` (`SensorBase` fields plus
`mI2CBus`, `mI2CAddress`; the file descriptor is the traced handle). -/
structure I2CSensor where
  state : SensorState
  lastError : ErrorCode
  i2cBus : Nat
  i2cAddress : Nat
  hw : List BusEvent

/-- Model of `SensorBase::getLastError` for the I2C driver. -/
def I2CSensor.getLastError (s : I2CSensor) : ErrorCode := s.lastError

/-- Model of `I2CSensor::writeRegister`: single-register write transaction. -/
def I2CSensor.writeRegister (s : I2CSensor) (env : BusEnv) (regAddr d : Nat) :
    I2CSensor × Bool :=
  if s.state = .UNINITIALIZED then
    ({ s with lastError := .NOT_INITIALIZED }, false)
  else if env.ok then
    ({ s with hw := s.hw ++ [.i2cWrite regAddr d] }, true)
  else
    ({ s with lastError := .TRANSFER_FAILED, state := .ERROR,
              hw := s.hw ++ [.i2cWrite regAddr d] }, false)

/-- Model of `I2CSensor::readRegister`: single-register read transaction. -/
def I2CSensor.readRegister (s : I2CSensor) (env : BusEnv) (regAddr : Nat) :
    I2CSensor × Option Nat :=
  if s.state = .UNINITIALIZED then
    ({ s with lastError := .NOT_INITIALIZED }, none)
  else if env.ok then
    ({ s with hw := s.hw ++ [.i2cRead regAddr] }, some (env.data regAddr))
  else
    ({ s with lastError := .TRANSFER_FAILED, state := .ERROR,
              hw := s.hw ++ [.i2cRead regAddr] }, none)

/-- Model of `I2CSensor::readRegisters`: burst read starting at an address. -/
def I2CSensor.readRegisters (s : I2CSensor) (env : BusEnv) (regAddr len : Nat) :
    I2CSensor × Option (List Nat) :=
  if s.state = .UNINITIALIZED then
    ({ s with lastError := .NOT_INITIALIZED }, none)
  else if env.ok then
    ({ s with hw := s.hw ++ [.i2cBurst regAddr len] },
      some ((List.range len).map (fun k => env.data (regAddr + k))))
  else
    ({ s with lastError := .TRANSFER_FAILED, state := .ERROR,
              hw := s.hw ++ [.i2cBurst regAddr len] }, none)

/-- Model of `I2CSensor::read`: acquire a sample over the bus; failure yields an
invalid reading and records the cause (spec §4.1). -/
def I2CSensor.read (s : I2CSensor) (env : BusEnv) (now : Nat) :
    I2CSensor × SensorReading :=
  if s.state = .UNINITIALIZED then
    ({ s with lastError := .NOT_INITIALIZED },
      ⟨now, [], "", s.i2cBus, false⟩)
  else if env.ok then
    ({ s with state := .RUNNING, hw := s.hw ++ [.i2cRead 0] },
      ⟨now, [((env.data 0 : Int) : ℚ)], "raw", s.i2cAddress, true⟩)
  else
    ({ s with lastError := .TRANSFER_FAILED, state := .ERROR,
              hw := s.hw ++ [.i2cRead 0] },
      ⟨now, [], "", s.i2cAddress, false⟩)

/-- Model of `SPISensor` state (`spi_sensor.h`: `SensorBase` fields plus bus,
chip-select, mode and clock configuration; the handle is traced). -/
structure SPISensor where
  state : SensorState
  lastError : ErrorCode
  hw : List BusEvent

/-- Model of `SensorBase::getLastError` for the SPI driver. -/
def SPISensor.getLastError (s : SPISensor) : ErrorCode := s.lastError

/-- Model of `SPISensor::transfer`: full-duplex exchange asserting chip-select
before and deasserting after on every exit path (spec §4.2). -/
def SPISensor.transfer (s : SPISensor) (env : BusEnv) (tx : List Nat) :
    SPISensor × Option (List Nat) :=
  if s.state = .UNINITIALIZED then
    ({ s with lastError := .NOT_INITIALIZED }, none)
  else if env.ok then
    ({ s with hw := s.hw ++ [.spiAssertCS, .spiBytes tx, .spiDeassertCS] },
      some ((List.range tx.length).map env.data))
  else
    ({ s with lastError := .TRANSFER_FAILED, state := .ERROR,
              hw := s.hw ++ [.spiAssertCS, .spiDeassertCS] }, none)

/-- Model of `SPISensor::commandResponse`: atomic two-phase transfer (write the
command, then read `len` bytes). -/
def SPISensor.commandResponse (s : SPISensor) (env : BusEnv) (cmd : List Nat)
    (len : Nat) : SPISensor × Option (List Nat) :=
  if s.state = .UNINITIALIZED then
    ({ s with lastError := .NOT_INITIALIZED }, none)
  else if env.ok then
    ({ s with hw := s.hw ++ [.spiAssertCS, .spiBytes cmd, .spiBytes (List.replicate len 0),
              .spiDeassertCS] },
      some ((List.range len).map env.data))
  else
    ({ s with lastError := .TRANSFER_FAILED, state := .ERROR,
              hw := s.hw ++ [.spiAssertCS, .spiDeassertCS] }, none)

/-- Model of `SPISensor::read`: acquire a sample via a transfer; failure yields an
invalid reading and records the cause. -/
def SPISensor.read (s : SPISensor) (env : BusEnv) (now : Nat) :
    SPISensor × SensorReading :=
  if s.state = .UNINITIALIZED then
    ({ s with lastError := .NOT_INITIALIZED }, ⟨now, [], "", 0, false⟩)
  else if env.ok then
    ({ s with state := .RUNNING,
              hw := s.hw ++ [.spiAssertCS, .spiBytes [0], .spiDeassertCS] },
      ⟨now, [((env.data 0 : Int) : ℚ)], "raw", 0, true⟩)
  else
    ({ s with lastError := .TRANSFER_FAILED, state := .ERROR,
              hw := s.hw ++ [.spiAssertCS, .spiDeassertCS] },
      ⟨now, [], "", 0, false⟩)

/-- UART environment: whether the line suffers a hard I/O error, and the
arrival offsets in milliseconds (in order) of successive incoming bytes. -/
structure UARTEnv where
  ok : Bool
  arrivals : List Nat

/-- Model of `UARTSensor` state, from `uart_sensor.h` (`SensorBase` fields; the port
file descriptor is the traced handle). -/
structure UARTSensor where
  state : SensorState
  lastError : ErrorCode
  hw : List BusEvent

/-- Model of `SensorBase::getLastError` for the UART driver. -/
def UARTSensor.getLastError (s : UARTSensor) : ErrorCode := s.lastError

/-- Model of `UARTSensor::send`: write the buffer out the port within the timeout. -/
def UARTSensor.send (s : UARTSensor) (env : UARTEnv) (data : List Nat) :
    UARTSensor × Bool :=
  if s.state = .UNINITIALIZED then
    ({ s with lastError := .NOT_INITIALIZED }, false)
  else if env.ok then
    ({ s with hw := s.hw ++ [.uartTx data] }, true)
  else
    ({ s with lastError := .TRANSFER_FAILED, state := .ERROR,
              hw := s.hw ++ [.uartTx data] }, false)

/-- Model of `UARTSensor::receive`: block up to `timeoutMs` for at most `maxLength`
bytes; the result is the actual byte count received before the timeout, or
the sentinel `-1` on a hard I/O error; the second component is the time the
call blocked (spec §4.2: returns the actual byte count, may be less than
requested on timeout, with a distinct sentinel for hard error versus
timeout). -/
def UARTSensor.receive (s : UARTSensor) (env : UARTEnv) (maxLength timeoutMs : Nat) :
    UARTSensor × Int × Nat :=
  if s.state = .UNINITIALIZED then
    (({ s with lastError := .NOT_INITIALIZED } : UARTSensor), -1, 0)
  else if env.ok then
    let avail := (env.arrivals.filter (fun t => t < timeoutMs)).take maxLength
    let n := avail.length
    let elapsed := if n = maxLength then avail.foldl max 0 else timeoutMs
    let s1 :=
      if n < maxLength then ({ s with lastError := .TIMEOUT, hw := s.hw ++ [.uartRx n] } : UARTSensor)
      else ({ s with hw := s.hw ++ [.uartRx n] } : UARTSensor)
    (s1, (n : Int), elapsed)
  else
    (({ s with lastError := .TRANSFER_FAILED, state := .ERROR,
               hw := s.hw ++ [.uartRx 0] } : UARTSensor), -1, 0)

/-- Model of `UARTSensor::sendCommand`: flush stale input, write the command, then
wait for the response within the timeout (spec §4.2). -/
def UARTSensor.sendCommand (s : UARTSensor) (env : UARTEnv) (command : List Nat)
    (maxResponseLength timeoutMs : Nat) : UARTSensor × Option (List Nat) :=
  if s.state = .UNINITIALIZED then
    ({ s with lastError := .NOT_INITIALIZED }, none)
  else if env.ok then
    let n := ((env.arrivals.filter (fun t => t < timeoutMs)).take maxResponseLength).length
    ({ s with hw := s.hw ++ [.uartFlush, .uartTx command, .uartRx n] },
      some (List.replicate n 0))
  else
    ({ s with lastError := .TRANSFER_FAILED, state := .ERROR,
              hw := s.hw ++ [.uartFlush] }, none)

/-- Model of `UARTSensor::read`: acquire a sample over the port; failure yields an
invalid reading and records the cause. -/
def UARTSensor.read (s : UARTSensor) (env : UARTEnv) (now : Nat) :
    UARTSensor × SensorReading :=
  if s.state = .UNINITIALIZED then
    ({ s with lastError := .NOT_INITIALIZED }, ⟨now, [], "", 0, false⟩)
  else if env.ok then
    if env.arrivals = [] then
      ({ s with lastError := .TIMEOUT, state := .ERROR, hw := s.hw ++ [.uartRx 0] },
        ⟨now, [], "", 0, false⟩)
    else
      ({ s with state := .RUNNING, hw := s.hw ++ [.uartRx env.arrivals.length] },
        ⟨now, [(env.arrivals.length : ℚ)], "raw", 0, true⟩)
  else
    ({ s with lastError := .TRANSFER_FAILED, state := .ERROR, hw := s.hw ++ [.uartRx 0] },
      ⟨now, [], "", 0, false⟩)

/-- GPIO direction options, from `gpio_sensor.h`. -/
inductive GPIODirection where
  | INPUT
  | OUTPUT
deriving DecidableEq, Repr

/-- GPIO edge detection options, from `gpio_sensor.h`. -/
inductive GPIOEdge where
  | NONE
  | RISING
  | FALLING
  | BOTH
deriving DecidableEq, Repr

/-- GPIO pull resistor options, from `gpio_sensor.h`. -/
inductive GPIOPull where
  | NONE
  | UP
  | DOWN
deriving DecidableEq, Repr

/-- One exported GPIO pin, from the `GPIOPin` members of `gpio_sensor.h`. -/
structure GPIOPin where
  pinNumber : Nat
  direction : GPIODirection
  edge : GPIOEdge
  pull : GPIOPull
deriving DecidableEq, Repr

/-- Model of `GPIOSensor` state: `SensorBase` fields plus the ordered pin
collection (`mPins` in `gpio_sensor.h`); pin-level hardware interactions
are traced. -/
structure GPIOSensor where
  state : SensorState
  lastError : ErrorCode
  pins : List GPIOPin
  hw : List BusEvent

/-- Model of `SensorBase::getLastError` for the GPIO driver. -/
def GPIOSensor.getLastError (s : GPIOSensor) : ErrorCode := s.lastError

/-- Model of `GPIOSensor::configurePin`: reconfigure the pin at `index`; an
out-of-range index is an INVALID_PARAMETER error and touches nothing
(spec §4.2: never undefined behavior). -/
def GPIOSensor.configurePin (s : GPIOSensor) (index : Nat)
    (direction : GPIODirection) (edge : GPIOEdge) (pull : GPIOPull) :
    GPIOSensor × Bool :=
  if s.state = .UNINITIALIZED then
    ({ s with lastError := .NOT_INITIALIZED }, false)
  else
    match s.pins.get? index with
    | none => ({ s with lastError := .INVALID_PARAMETER }, false)
    | some p =>
      ({ s with pins := s.pins.set index ⟨p.pinNumber, direction, edge, pull⟩,
                hw := s.hw ++ [.gpioConfig p.pinNumber] }, true)

/-- Model of `GPIOSensor::setPinValue`: drive the output pin at `index`; an
out-of-range index is an INVALID_PARAMETER error and touches nothing. -/
def GPIOSensor.setPinValue (s : GPIOSensor) (env : BusEnv) (index : Nat)
    (value : Bool) : GPIOSensor × Bool :=
  if s.state = .UNINITIALIZED then
    ({ s with lastError := .NOT_INITIALIZED }, false)
  else
    match s.pins.get? index with
    | none => ({ s with lastError := .INVALID_PARAMETER }, false)
    | some p =>
      if env.ok then
        ({ s with hw := s.hw ++ [.gpioWrite p.pinNumber value] }, true)
      else
        ({ s with lastError := .TRANSFER_FAILED, state := .ERROR,
                  hw := s.hw ++ [.gpioWrite p.pinNumber value] }, false)

/-- Model of `GPIOSensor::getPinValue`: sample the input pin at `index`; an
out-of-range index is an INVALID_PARAMETER error and touches nothing. -/
def GPIOSensor.getPinValue (s : GPIOSensor) (env : BusEnv) (index : Nat) :
    GPIOSensor × Option Bool :=
  if s.state = .UNINITIALIZED then
    ({ s with lastError := .NOT_INITIALIZED }, none)
  else
    match s.pins.get? index with
    | none => ({ s with lastError := .INVALID_PARAMETER }, none)
    | some p =>
      ({ s with hw := s.hw ++ [.gpioRead p.pinNumber] },
        some (env.data p.pinNumber ≠ 0))

/-- Model of `GPIOSensor::read`: sample every owned pin; failure yields an invalid
reading and records the cause. -/
def GPIOSensor.read (s : GPIOSensor) (env : BusEnv) (now : Nat) :
    GPIOSensor × SensorReading :=
  if s.state = .UNINITIALIZED then
    ({ s with lastError := .NOT_INITIALIZED }, ⟨now, [], "", 0, false⟩)
  else if env.ok then
    ({ s with state := .RUNNING,
              hw := s.hw ++ s.pins.map (fun p => .gpioRead p.pinNumber) },
      ⟨now, s.pins.map (fun p => ((env.data p.pinNumber : Int) : ℚ)), "bool", 0, true⟩)
  else
    ({ s with lastError := .TRANSFER_FAILED, state := .ERROR },
      ⟨now, [], "", 0, false⟩)

end Sensors

/-! ## Verified properties -/

namespace Data

open Sensors

@[simp] theorem parseNat_encodeNat (n : Nat) (rest : List Char) :
    parseNat (encodeNat n ++ rest) = some (n, rest) := by
  induction n with
  | zero => simp [encodeNat, parseNat]
  | succ k ih => simp [encodeNat, parseNat] at ih ⊢; simp [ih]

@[simp] theorem parseInt_encodeInt (i : Int) (rest : List Char) :
    parseInt (encodeInt i ++ rest) = some (i, rest) := by
  by_cases h : i < 0
  · have h1 : ((i.natAbs : Int)) = -i := by omega
    simp [encodeInt, parseInt, h, h1]
  · have h1 : ((i.natAbs : Int)) = i := by omega
    simp [encodeInt, parseInt, h, h1]

@[simp] theorem parseRat_encodeRat (q : ℚ) (rest : List Char) :
    parseRat (encodeRat q ++ rest) = some (q, rest) := by
  simp [encodeRat, parseRat, List.append_assoc, Rat.num_div_den]

@[simp] theorem parseTake_append (cs rest : List Char) :
    parseTake cs.length (cs ++ rest) = some (cs, rest) := by
  induction cs with
  | nil => simp [parseTake]
  | cons c cs ih => simp [parseTake, ih]

@[simp] theorem parseTake_strlen (s : String) (rest : List Char) :
    parseTake s.length (s.data ++ rest) = some (s.data, rest) := by
  have h : s.length = s.data.length := rfl
  rw [h, parseTake_append]

@[simp] theorem parseStr_encodeStr (s : String) (rest : List Char) :
    parseStr (encodeStr s ++ rest) = some (s, rest) := by
  simp [encodeStr, parseStr, List.append_assoc]

@[simp] theorem parseRats_encodeRatList (l : List ℚ) (rest : List Char) :
    parseRats l.length (encodeRatList l ++ rest) = some (l, rest) := by
  induction l with
  | nil => simp [encodeRatList, parseRats]
  | cons q qs ih => simp [encodeRatList, parseRats, List.append_assoc, ih]

@[simp] theorem parseReading_encodeReading (r : SensorReading) (rest : List Char) :
    parseReading (encodeReading r ++ rest) = some (r, rest) := by
  obtain ⟨ts, vals, u, sid, v⟩ := r
  cases v <;> simp [encodeReading, parseReading, List.append_assoc]

@[simp] theorem parseReadings_encodeReadingList (rs : List SensorReading)
    (rest : List Char) :
    parseReadings rs.length (encodeReadingList rs ++ rest) = some (rs, rest) := by
  induction rs with
  | nil => simp [encodeReadingList, parseReadings]
  | cons r tl ih => simp [encodeReadingList, parseReadings, List.append_assoc, ih]

theorem parseReadings_encodeReadingList_closed (rs : List SensorReading) :
    parseReadings rs.length (encodeReadingList rs) = some (rs, []) := by
  simpa using parseReadings_encodeReadingList rs []

/-- Claim C1: for every batch of sensor readings,
`decompress (compress batch)` returns a batch equal to the input
reading-for-reading — the timestamp, values vector, unit, sensor identifier
and valid flag of every reading are reproduced exactly, in the same
order. -/
theorem compress_decompress_roundtrip (batch : List SensorReading) :
    decompress (compress batch) = batch := by
  simp [compress, decompress, parseReadings_encodeReadingList_closed]

/-- Claim C4: the moving-average filter keeps, per identifier, a FIFO of at
most the last `windowSize` value-vectors (appending the new sample and
sliding the oldest out), and each emitted reading's values equal the
componentwise mean of the currently buffered samples; MovingAverage with
window 3 over successive single-component readings [1], [2], [3], [4] for
one identifier emits [1], [1.5], [2], [3]. -/
theorem movingAverage_spec :
    (∀ (f : MovingAverageFilter) (r : SensorReading),
        1 ≤ f.windowSize → (∀ i, (f.history i).length ≤ f.windowSize) →
        ∀ i, ((f.applyOne r).fst.history i).length ≤ f.windowSize)
    ∧ (∀ (f : MovingAverageFilter) (r : SensorReading),
        (f.applyOne r).fst.history r.sensorId =
          (f.history r.sensorId ++ [r.values]).drop
            ((f.history r.sensorId ++ [r.values]).length - f.windowSize))
    ∧ (∀ (f : MovingAverageFilter) (r : SensorReading),
        sameDims ((f.applyOne r).fst.history r.sensorId) r.values.length = true →
        (f.applyOne r).snd.values =
          meanVec ((f.applyOne r).fst.history r.sensorId) r.values.length)
    ∧ (((MovingAverageFilter.make 3).applyBatch
          [⟨1, [1], "u", 1, true⟩, ⟨2, [2], "u", 1, true⟩,
            ⟨3, [3], "u", 1, true⟩, ⟨4, [4], "u", 1, true⟩]).snd.map
          (fun r => r.values) = [[1], [3/2], [2], [3]]) := by
  refine ⟨?_, ?_, ?_, ?_⟩
  · intro f r _ hbound i
    by_cases hi : i = r.sensorId
    · subst hi
      simp [MovingAverageFilter.applyOne]
      omega
    · simpa [MovingAverageFilter.applyOne, hi] using hbound i
  · intro f r
    simp [MovingAverageFilter.applyOne]
  · intro f r h
    simp only [MovingAverageFilter.applyOne] at h ⊢
    simp at h ⊢
    rw [if_pos h]
  · norm_num [MovingAverageFilter.applyBatch, MovingAverageFilter.applyOne,
      MovingAverageFilter.make, meanVec, sameDims, List.range_succ]

/-- Witness for C4 at a concrete filter, reading and identifier. -/
theorem movingAverage_spec_witness :
    (((MovingAverageFilter.make 3).applyOne ⟨1, [1], "u", 1, true⟩).fst.history 1).length ≤ 3 :=
  movingAverage_spec.1 (MovingAverageFilter.make 3) ⟨1, [1], "u", 1, true⟩ (by decide)
    (fun _ => by simp [MovingAverageFilter.make]) 1

/-- Claim C5: the delta filter emits a reading exactly when no value was
ever accepted for its identifier, or some component's absolute difference
from the last accepted vector exceeds `minDelta`; a dropped reading leaves
the filter state unchanged; Delta with minDelta 0.5 over single-component
readings [1.0], [1.2], [1.8] passes the first, drops the second, and passes
the third. -/
theorem deltaFilter_spec :
    (∀ (f : DeltaFilter) (r : SensorReading),
        ((f.applyOne r).snd = [r] ↔
          (f.lastValues r.sensorId = none ∨
            ∃ last, f.lastValues r.sensorId = some last ∧
              ∃ d ∈ List.zipWith (fun a b => |a - b|) r.values last, f.minDelta < d))
        ∧ ((f.applyOne r).snd = [r] ∨
            ((f.applyOne r).snd = [] ∧ (f.applyOne r).fst = f)))
    ∧ (((DeltaFilter.make (1/2)).applyBatch
          [⟨1, [1], "u", 1, true⟩, ⟨2, [6/5], "u", 1, true⟩,
            ⟨3, [9/5], "u", 1, true⟩]).snd =
        [⟨1, [1], "u", 1, true⟩, ⟨3, [9/5], "u", 1, true⟩]) := by
  constructor
  · intro f r
    constructor
    · rcases hl : f.lastValues r.sensorId with _ | last
      · simp [DeltaFilter.applyOne, DeltaFilter.hasChangedEnough, hl]
      · by_cases hc : ∃ d ∈ List.zipWith (fun a b => |a - b|) r.values last, f.minDelta < d
        · have hb : (List.zipWith (fun a b => |a - b|) r.values last).any
              (fun d => decide (f.minDelta < d)) = true := by
            rw [List.any_eq_true]
            rcases hc with ⟨d, hd, hlt⟩
            exact ⟨d, hd, by simpa using hlt⟩
          simp [DeltaFilter.applyOne, DeltaFilter.hasChangedEnough, hl, hb, hc]
        · have hb : (List.zipWith (fun a b => |a - b|) r.values last).any
              (fun d => decide (f.minDelta < d)) = false := by
            rw [List.any_eq_false]
            intro d hd
            simpa using fun hlt => hc ⟨d, hd, hlt⟩
          simp [DeltaFilter.applyOne, DeltaFilter.hasChangedEnough, hl, hb, hc]
    · unfold DeltaFilter.applyOne
      by_cases hc : f.hasChangedEnough r = true
      · simp [hc]
      · simp only [Bool.not_eq_true] at hc
        simp [hc]
  · norm_num [DeltaFilter.applyBatch, DeltaFilter.applyOne, DeltaFilter.make,
      DeltaFilter.hasChangedEnough, abs]

/-- Claim C6: constructing a median filter with an even window size is
rejected with INVALID_PARAMETER, an odd window size is accepted as given,
each emitted reading's values equal the componentwise median of the
currently buffered samples, and Median with window 3 over single-component
readings [1], [5], [2] emits [1], [3], [2]. -/
theorem medianFilter_spec :
    (∀ w : Nat, w % 2 = 0 → MedianFilter.make w = .error .INVALID_PARAMETER)
    ∧ (∀ w : Nat, w % 2 = 1 →
        ∃ f, MedianFilter.make w = .ok f ∧ f.windowSize = w)
    ∧ (∀ (f : MedianFilter) (r : SensorReading),
        sameDims ((f.applyOne r).fst.history r.sensorId) r.values.length = true →
        (f.applyOne r).snd.values =
          medianVec ((f.applyOne r).fst.history r.sensorId) r.values.length)
    ∧ (∀ f, MedianFilter.make 3 = .ok f →
        (f.applyBatch [⟨1, [1], "u", 1, true⟩, ⟨2, [5], "u", 1, true⟩,
          ⟨3, [2], "u", 1, true⟩]).snd.map (fun r => r.values) = [[1], [3], [2]]) := by
  refine ⟨?_, ?_, ?_, ?_⟩
  · intro w hw
    simp [MedianFilter.make, hw]
  · intro w hw
    refine ⟨⟨w, fun _ => []⟩, ?_, rfl⟩
    simp [MedianFilter.make]
    omega
  · intro f r h
    simp only [MedianFilter.applyOne] at h ⊢
    simp at h ⊢
    rw [if_pos h]
  · intro f h
    have h2 : (MedianFilter.make 3 : Except ErrorCode MedianFilter) =
        .ok ⟨3, fun _ => []⟩ := rfl
    rw [h2] at h
    cases h
    norm_num [MedianFilter.applyBatch, MedianFilter.applyOne, medianVec,
      calculateMedianValue, sameDims, List.range_succ, List.insertionSort,
      List.orderedInsert]

/-- Witness for C6 at concrete window sizes. -/
theorem medianFilter_spec_witness :
    MedianFilter.make 4 = .error .INVALID_PARAMETER ∧
    ((⟨3, fun _ => []⟩ : MedianFilter).applyBatch
      [⟨1, [1], "u", 1, true⟩, ⟨2, [5], "u", 1, true⟩,
        ⟨3, [2], "u", 1, true⟩]).snd.map (fun r => r.values) = [[1], [3], [2]] :=
  ⟨medianFilter_spec.1 4 (by decide), medianFilter_spec.2.2.2 ⟨3, fun _ => []⟩ rfl⟩

/-- Claim C10: a threshold filter constructed with the default arguments
(minimum minus infinity, maximum plus infinity) is the identity on every
batch (all embedded components are finite rationals), and the threshold
filter keeps no per-identifier history: its output is a pure function of
the batch and the two threshold values alone. -/
theorem threshold_default_identity :
    (∀ batch : List SensorReading, ThresholdFilter.default.apply batch = batch)
    ∧ (∀ (f : ThresholdFilter) (batch : List SensorReading),
        f.apply batch = batch.filter (fun r => r.values.all f.isWithinThresholds)) := by
  constructor
  · intro batch
    apply List.filter_eq_self.mpr
    intro r _
    simp only [List.all_eq_true]
    intro v _
    rfl
  · intro f batch
    rfl

/-- Bounds and membership laws for the minimum and maximum folds, and the
projection laws of `combineValues`, used to verify the aggregation methods. -/
theorem foldl_min_le_mem (qs : List ℚ) :
    ∀ q : ℚ, ∀ x ∈ q :: qs, qs.foldl min q ≤ x := by
  induction qs with
  | nil =>
    intro q x hx
    rw [List.mem_singleton.mp hx]
    simp
  | cons y ys ih =>
    intro q x hx
    simp only [List.foldl_cons]
    rcases List.mem_cons.mp hx with h | hx2
    · rw [h]
      exact le_trans (ih (min q y) (min q y) (List.mem_cons_self _ _)) (min_le_left _ _)
    · rcases List.mem_cons.mp hx2 with h | hx3
      · rw [h]
        exact le_trans (ih (min q y) (min q y) (List.mem_cons_self _ _)) (min_le_right _ _)
      · exact ih (min q y) x (List.mem_cons_of_mem _ hx3)

theorem foldl_min_mem (qs : List ℚ) :
    ∀ q : ℚ, qs.foldl min q ∈ q :: qs := by
  induction qs with
  | nil => intro q; simp
  | cons y ys ih =>
    intro q
    simp only [List.foldl_cons]
    rcases List.mem_cons.mp (ih (min q y)) with h2 | h2
    · rcases min_choice q y with hm | hm
      · rw [h2, hm]; exact List.mem_cons_self _ _
      · rw [h2, hm]; exact List.mem_cons_of_mem _ (List.mem_cons_self _ _)
    · exact List.mem_cons_of_mem _ (List.mem_cons_of_mem _ h2)

theorem foldl_max_le_mem (qs : List ℚ) :
    ∀ q : ℚ, ∀ x ∈ q :: qs, x ≤ qs.foldl max q := by
  induction qs with
  | nil =>
    intro q x hx
    rw [List.mem_singleton.mp hx]
    simp
  | cons y ys ih =>
    intro q x hx
    simp only [List.foldl_cons]
    rcases List.mem_cons.mp hx with h | hx2
    · rw [h]
      exact le_trans (le_max_left _ _) (ih (max q y) (max q y) (List.mem_cons_self _ _))
    · rcases List.mem_cons.mp hx2 with h | hx3
      · rw [h]
        exact le_trans (le_max_right _ _) (ih (max q y) (max q y) (List.mem_cons_self _ _))
      · exact ih (max q y) x (List.mem_cons_of_mem _ hx3)

theorem foldl_max_mem (qs : List ℚ) :
    ∀ q : ℚ, qs.foldl max q ∈ q :: qs := by
  induction qs with
  | nil => intro q; simp
  | cons y ys ih =>
    intro q
    simp only [List.foldl_cons]
    rcases List.mem_cons.mp (ih (max q y)) with h2 | h2
    · rcases max_choice q y with hm | hm
      · rw [h2, hm]; exact List.mem_cons_self _ _
      · rw [h2, hm]; exact List.mem_cons_of_mem _ (List.mem_cons_self _ _)
    · exact List.mem_cons_of_mem _ (List.mem_cons_of_mem _ h2)

theorem minList_mem (l : List ℚ) (h : l ≠ []) : minList l ∈ l := by
  cases l with
  | nil => cases h rfl
  | cons q qs => simpa [minList] using foldl_min_mem qs q

theorem minList_le (l : List ℚ) : ∀ x ∈ l, minList l ≤ x := by
  cases l with
  | nil => intro x hx; cases hx
  | cons q qs => intro x hx; simpa [minList] using foldl_min_le_mem qs q x hx

theorem maxList_mem (l : List ℚ) (h : l ≠ []) : maxList l ∈ l := by
  cases l with
  | nil => cases h rfl
  | cons q qs => simpa [maxList] using foldl_max_mem qs q

theorem le_maxList (l : List ℚ) : ∀ x ∈ l, x ≤ maxList l := by
  cases l with
  | nil => intro x hx; cases hx
  | cons q qs => intro x hx; simpa [maxList] using foldl_max_le_mem qs q x hx

theorem getD_range_map (f : Nat → ℚ) (d j : Nat) (hj : j < d) :
    ((List.range d).map f).getD j 0 = f j := by
  have hjl : j < ((List.range d).map f).length := by simpa using hj
  rw [List.getD_eq_getElem _ _ hjl]
  simp

theorem aggregate_eq_of_uniform (r0 : SensorReading) (tl : List SensorReading)
    (sid d : Nat) (u : String) (method : String)
    (hall : ∀ r ∈ r0 :: tl,
      r.valid = true ∧ r.sensorId = sid ∧ r.unit = u ∧ r.values.length = d)
    (hm : method ∈ recognizedMethods) :
    aggregate (r0 :: tl) method =
      ⟨((r0 :: tl).map (fun r => r.timestamp)).foldl max 0,
        combineValues method ((r0 :: tl).map (fun r => r.values)) d,
        u, sid, true⟩ := by
  have hfilter : (r0 :: tl).filter (fun r => r.valid) = r0 :: tl :=
    List.filter_eq_self.mpr (fun r hr => (hall r hr).1)
  obtain ⟨_, hsid0, hu0, hd0⟩ := hall r0 (List.mem_cons_self _ _)
  have hall2 : (r0 :: tl).all (fun r =>
      r.sensorId == r0.sensorId && r.unit == r0.unit &&
        r.values.length == r0.values.length) = true := by
    rw [List.all_eq_true]
    intro r hr
    obtain ⟨_, hsid, hu, hd⟩ := hall r hr
    simp [hsid, hu, hd, hsid0, hu0, hd0]
  simp only [aggregate, if_pos hm, hfilter, hall2, if_pos]
  rw [hsid0, hu0, hd0]


theorem combineValues_avg (vs : List (List ℚ)) (d j : Nat) (hj : j < d) :
    (combineValues "avg" vs d).getD j 0
      = (vs.map (fun v => v.getD j 0)).sum / (vs.length : ℚ) := by
  simp only [combineValues]
  rw [getD_range_map _ d j hj]
  simp

theorem combineValues_sum (vs : List (List ℚ)) (d j : Nat) (hj : j < d) :
    (combineValues "sum" vs d).getD j 0
      = (vs.map (fun v => v.getD j 0)).sum := by
  simp only [combineValues]
  rw [getD_range_map _ d j hj]
  simp

theorem combineValues_min (vs : List (List ℚ)) (d j : Nat) (hj : j < d) :
    (combineValues "min" vs d).getD j 0
      = minList (vs.map (fun v => v.getD j 0)) := by
  simp only [combineValues]
  rw [getD_range_map _ d j hj]
  simp

theorem combineValues_max (vs : List (List ℚ)) (d j : Nat) (hj : j < d) :
    (combineValues "max" vs d).getD j 0
      = maxList (vs.map (fun v => v.getD j 0)) := by
  simp only [combineValues]
  rw [getD_range_map _ d j hj]
  simp

/-- Claim C3: `aggregate` with a method outside {avg, min, max, sum}
returns the failed (invalid) result and, being a pure function of its
const-reference batch, leaves the input untouched; with every recognized
method it collapses a nonempty group of valid readings sharing one
identifier, unit and dimensionality into one valid reading for that
identifier, whose components are the method-combination of the group:
componentwise mean for avg, componentwise total for sum, and for min (max)
a group member that bounds the whole group from below (above); in
particular avg over same-identifier readings [2.0] and [4.0] yields
[3.0]. -/
theorem aggregate_spec :
    (∀ (readings : List SensorReading) (method : String),
        method ∉ recognizedMethods →
          aggregate readings method = invalidReading ∧
            (aggregate readings method).valid = false)
    ∧ (∀ (rs : List SensorReading) (sid d : Nat) (u : String) (method : String),
        rs ≠ [] →
        (∀ r ∈ rs, r.valid = true ∧ r.sensorId = sid ∧ r.unit = u ∧ r.values.length = d) →
        method ∈ recognizedMethods →
          (aggregate rs method).valid = true
          ∧ (aggregate rs method).sensorId = sid
          ∧ (aggregate rs method).unit = u
          ∧ (aggregate rs method).values.length = d)
    ∧ (∀ (rs : List SensorReading) (sid d : Nat) (u : String),
        rs ≠ [] →
        (∀ r ∈ rs, r.valid = true ∧ r.sensorId = sid ∧ r.unit = u ∧ r.values.length = d) →
        ∀ j : Nat, j < d →
          (aggregate rs "avg").values.getD j 0 =
              (rs.map (fun r => r.values.getD j 0)).sum / (rs.length : ℚ)
          ∧ (aggregate rs "sum").values.getD j 0 =
              (rs.map (fun r => r.values.getD j 0)).sum
          ∧ ((aggregate rs "min").values.getD j 0 ∈ rs.map (fun r => r.values.getD j 0)
              ∧ ∀ x ∈ rs.map (fun r => r.values.getD j 0),
                  (aggregate rs "min").values.getD j 0 ≤ x)
          ∧ ((aggregate rs "max").values.getD j 0 ∈ rs.map (fun r => r.values.getD j 0)
              ∧ ∀ x ∈ rs.map (fun r => r.values.getD j 0),
                  x ≤ (aggregate rs "max").values.getD j 0))
    ∧ ((aggregate [⟨10, [2], "C", 7, true⟩, ⟨20, [4], "C", 7, true⟩] "avg")
        = ⟨20, [3], "C", 7, true⟩) := by
  refine ⟨?_, ?_, ?_, ?_⟩
  · intro readings method h
    constructor
    · simp [aggregate, h]
    · simp [aggregate, h, invalidReading]
  · intro rs sid d u method hne hall hm
    cases rs with
    | nil => cases hne rfl
    | cons r0 tl =>
      rw [aggregate_eq_of_uniform r0 tl sid d u method hall hm]
      exact ⟨rfl, rfl, rfl, by simp [combineValues]⟩
  · intro rs sid d u hne hall j hj
    cases rs with
    | nil => cases hne rfl
    | cons r0 tl =>
      rw [aggregate_eq_of_uniform r0 tl sid d u "avg" hall (by decide),
        aggregate_eq_of_uniform r0 tl sid d u "sum" hall (by decide),
        aggregate_eq_of_uniform r0 tl sid d u "min" hall (by decide),
        aggregate_eq_of_uniform r0 tl sid d u "max" hall (by decide)]
      have hcol : ((r0 :: tl).map (fun r => r.values)).map (fun v => v.getD j 0)
          = (r0 :: tl).map (fun r => r.values.getD j 0) := by
        simp [List.map_map, Function.comp]
      dsimp only
      rw [combineValues_avg _ d j hj, combineValues_sum _ d j hj,
        combineValues_min _ d j hj, combineValues_max _ d j hj, hcol]
      refine ⟨by simp, rfl, ⟨minList_mem _ (by simp), minList_le _⟩,
        ⟨maxList_mem _ (by simp), le_maxList _⟩⟩
  · norm_num [aggregate, recognizedMethods, combineValues, List.range_succ]

/-- Witness for C3: the unrecognized-method failure and the min law, each
at a concrete batch with every hypothesis discharged. -/
theorem aggregate_spec_witness :
    (aggregate [⟨10, [2], "C", 7, true⟩] "median").valid = false ∧
    ((aggregate [⟨1, [5], "C", 7, true⟩, ⟨2, [3], "C", 7, true⟩,
        ⟨3, [4], "C", 7, true⟩] "min").values.getD 0 0
      ∈ [⟨1, [5], "C", 7, true⟩, ⟨2, [3], "C", 7, true⟩,
          ⟨3, [4], "C", 7, true⟩].map (fun r : SensorReading => r.values.getD 0 0)) :=
  ⟨(aggregate_spec.1 [⟨10, [2], "C", 7, true⟩] "median" (by decide)).2,
    (aggregate_spec.2.2.1 [⟨1, [5], "C", 7, true⟩, ⟨2, [3], "C", 7, true⟩,
        ⟨3, [4], "C", 7, true⟩] 7 1 "C" (by simp) (by decide) 0 (by decide)).2.2.1.1⟩

end Data

namespace Sensors

/-- Upper bound for a maximum fold over a list of bounded naturals. -/
theorem foldl_max_le (l : List Nat) (T : Nat) :
    ∀ a : Nat, a ≤ T → (∀ x ∈ l, x ≤ T) → l.foldl max a ≤ T := by
  induction l with
  | nil => intro a ha _; simpa using ha
  | cons x xs ih =>
    intro a ha h
    simp only [List.foldl_cons]
    exact ih (max a x) (max_le ha (h x (by simp))) (fun y hy => h y (by simp [hy]))

/-- Claim C2: for every bus driver (I2C, SPI, UART, GPIO) and every public
I/O operation (writeRegister, readRegister, readRegisters, transfer,
commandResponse, send, receive, sendCommand, configurePin, setPinValue,
getPinValue), a call made before `initialize` has succeeded fails with
NOT_INITIALIZED and performs no interaction with the underlying hardware
resource: the traced handle (and, for GPIO, the pin collection) is left
untouched. -/
theorem io_before_init_rejected :
    (∀ (s : I2CSensor) (env : BusEnv) (regAddr d : Nat),
        s.state = .UNINITIALIZED →
          (s.writeRegister env regAddr d).fst.hw = s.hw ∧
          (s.writeRegister env regAddr d).fst.lastError = .NOT_INITIALIZED ∧
          (s.writeRegister env regAddr d).snd = false)
    ∧ (∀ (s : I2CSensor) (env : BusEnv) (regAddr : Nat),
        s.state = .UNINITIALIZED →
          (s.readRegister env regAddr).fst.hw = s.hw ∧
          (s.readRegister env regAddr).fst.lastError = .NOT_INITIALIZED ∧
          (s.readRegister env regAddr).snd = none)
    ∧ (∀ (s : I2CSensor) (env : BusEnv) (regAddr len : Nat),
        s.state = .UNINITIALIZED →
          (s.readRegisters env regAddr len).fst.hw = s.hw ∧
          (s.readRegisters env regAddr len).fst.lastError = .NOT_INITIALIZED ∧
          (s.readRegisters env regAddr len).snd = none)
    ∧ (∀ (s : SPISensor) (env : BusEnv) (tx : List Nat),
        s.state = .UNINITIALIZED →
          (s.transfer env tx).fst.hw = s.hw ∧
          (s.transfer env tx).fst.lastError = .NOT_INITIALIZED ∧
          (s.transfer env tx).snd = none)
    ∧ (∀ (s : SPISensor) (env : BusEnv) (cmd : List Nat) (len : Nat),
        s.state = .UNINITIALIZED →
          (s.commandResponse env cmd len).fst.hw = s.hw ∧
          (s.commandResponse env cmd len).fst.lastError = .NOT_INITIALIZED ∧
          (s.commandResponse env cmd len).snd = none)
    ∧ (∀ (s : UARTSensor) (env : UARTEnv) (data : List Nat),
        s.state = .UNINITIALIZED →
          (s.send env data).fst.hw = s.hw ∧
          (s.send env data).fst.lastError = .NOT_INITIALIZED ∧
          (s.send env data).snd = false)
    ∧ (∀ (s : UARTSensor) (env : UARTEnv) (maxLength timeoutMs : Nat),
        s.state = .UNINITIALIZED →
          (s.receive env maxLength timeoutMs).fst.hw = s.hw ∧
          (s.receive env maxLength timeoutMs).fst.lastError = .NOT_INITIALIZED ∧
          (s.receive env maxLength timeoutMs).snd.fst = -1)
    ∧ (∀ (s : UARTSensor) (env : UARTEnv) (command : List Nat) (m t : Nat),
        s.state = .UNINITIALIZED →
          (s.sendCommand env command m t).fst.hw = s.hw ∧
          (s.sendCommand env command m t).fst.lastError = .NOT_INITIALIZED ∧
          (s.sendCommand env command m t).snd = none)
    ∧ (∀ (s : GPIOSensor) (index : Nat)
        (dir : GPIODirection) (e : GPIOEdge) (p : GPIOPull),
        s.state = .UNINITIALIZED →
          (s.configurePin index dir e p).fst.hw = s.hw ∧
          (s.configurePin index dir e p).fst.pins = s.pins ∧
          (s.configurePin index dir e p).fst.lastError = .NOT_INITIALIZED ∧
          (s.configurePin index dir e p).snd = false)
    ∧ (∀ (s : GPIOSensor) (env : BusEnv) (index : Nat) (v : Bool),
        s.state = .UNINITIALIZED →
          (s.setPinValue env index v).fst.hw = s.hw ∧
          (s.setPinValue env index v).fst.pins = s.pins ∧
          (s.setPinValue env index v).fst.lastError = .NOT_INITIALIZED ∧
          (s.setPinValue env index v).snd = false)
    ∧ (∀ (s : GPIOSensor) (env : BusEnv) (index : Nat),
        s.state = .UNINITIALIZED →
          (s.getPinValue env index).fst.hw = s.hw ∧
          (s.getPinValue env index).fst.pins = s.pins ∧
          (s.getPinValue env index).fst.lastError = .NOT_INITIALIZED ∧
          (s.getPinValue env index).snd = none) := by
  refine ⟨?_, ?_, ?_, ?_, ?_, ?_, ?_, ?_, ?_, ?_, ?_⟩ <;>
    (intros
     simp_all [I2CSensor.writeRegister, I2CSensor.readRegister, I2CSensor.readRegisters,
       SPISensor.transfer, SPISensor.commandResponse, UARTSensor.send, UARTSensor.receive,
       UARTSensor.sendCommand, GPIOSensor.configurePin, GPIOSensor.setPinValue,
       GPIOSensor.getPinValue])

/-- Witness for C2 at a concrete uninitialized driver state. -/
theorem io_before_init_rejected_witness :
    ((⟨.UNINITIALIZED, .NONE, 0, 0, []⟩ : I2CSensor).writeRegister
        ⟨true, fun _ => 0⟩ 1 2).fst.lastError = .NOT_INITIALIZED ∧
    ((⟨.UNINITIALIZED, .NONE, [], []⟩ : GPIOSensor).getPinValue
        ⟨true, fun _ => 0⟩ 0).snd = none :=
  ⟨(io_before_init_rejected.1 ⟨.UNINITIALIZED, .NONE, 0, 0, []⟩
      ⟨true, fun _ => 0⟩ 1 2 rfl).2.1,
    (io_before_init_rejected.2.2.2.2.2.2.2.2.2.2 ⟨.UNINITIALIZED, .NONE, [], []⟩
      ⟨true, fun _ => 0⟩ 0 rfl).2.2.2⟩

/-- Claim C7: once initialized, `UARTSensor::receive` blocks at most the
caller-supplied timeout (the modelled blocked duration is bounded by
`timeoutMs`), on a hard I/O error it returns the sentinel `-1`, and
otherwise it returns the actual number of bytes that arrived before the
timeout — a nonnegative count of at most `maxLength`, possibly fewer than
requested — so the two failure causes are distinguishable from the return
value alone. -/
theorem uart_receive_spec :
    ∀ (s : UARTSensor) (env : UARTEnv) (maxLength timeoutMs : Nat),
      s.state ≠ .UNINITIALIZED →
        (s.receive env maxLength timeoutMs).snd.snd ≤ timeoutMs
        ∧ (env.ok = false → (s.receive env maxLength timeoutMs).snd.fst = -1)
        ∧ (env.ok = true →
            (s.receive env maxLength timeoutMs).snd.fst =
              (((env.arrivals.filter (fun t => t < timeoutMs)).take maxLength).length : Int)
            ∧ 0 ≤ (s.receive env maxLength timeoutMs).snd.fst
            ∧ (s.receive env maxLength timeoutMs).snd.fst ≤ (maxLength : Int)) := by
  intro s env maxLength timeoutMs hs
  unfold UARTSensor.receive
  rw [if_neg hs]
  by_cases he : env.ok = true
  · rw [if_pos he]
    simp only []
    refine ⟨?_, ?_, ?_⟩
    · by_cases hn : ((env.arrivals.filter (fun t => t < timeoutMs)).take maxLength).length
          = maxLength
      · rw [if_pos hn]
        apply foldl_max_le _ _ 0 (Nat.zero_le _)
        intro x hx
        have hx2 := List.mem_of_mem_take hx
        have := List.of_mem_filter hx2
        simp at this
        omega
      · rw [if_neg hn]
    · intro habs; rw [habs] at he; cases he
    · intro _
      refine ⟨by simp, by simp, ?_⟩
      simp [List.length_take]
  · rw [if_neg he]
    refine ⟨by simp, fun _ => rfl, ?_⟩
    intro habs; exact absurd habs he

/-- Witness for C7 at a concrete initialized driver and environment. -/
theorem uart_receive_spec_witness :
    ((⟨.INITIALIZED, .NONE, []⟩ : UARTSensor).receive ⟨true, [0, 5]⟩ 1 10).snd.snd ≤ 10 :=
  (uart_receive_spec ⟨.INITIALIZED, .NONE, []⟩ ⟨true, [0, 5]⟩ 1 10 (by simp)).1

/-- Claim C8: for an initialized GPIO sensor, every pin index at or beyond
the pin count makes `configurePin`, `setPinValue` and `getPinValue` fail
with INVALID_PARAMETER recorded as the last error, returning the failure
value and leaving the pin collection and the hardware trace untouched; the
pin collection is only ever accessed through the checked lookup, never out
of bounds. -/
theorem gpio_out_of_range :
    ∀ (s : GPIOSensor) (env : BusEnv) (index : Nat)
      (dir : GPIODirection) (e : GPIOEdge) (p : GPIOPull) (v : Bool),
      s.state ≠ .UNINITIALIZED → s.pins.length ≤ index →
        ((s.configurePin index dir e p).fst.lastError = .INVALID_PARAMETER ∧
          (s.configurePin index dir e p).fst.pins = s.pins ∧
          (s.configurePin index dir e p).fst.hw = s.hw ∧
          (s.configurePin index dir e p).snd = false)
        ∧ ((s.setPinValue env index v).fst.lastError = .INVALID_PARAMETER ∧
          (s.setPinValue env index v).fst.pins = s.pins ∧
          (s.setPinValue env index v).fst.hw = s.hw ∧
          (s.setPinValue env index v).snd = false)
        ∧ ((s.getPinValue env index).fst.lastError = .INVALID_PARAMETER ∧
          (s.getPinValue env index).fst.pins = s.pins ∧
          (s.getPinValue env index).fst.hw = s.hw ∧
          (s.getPinValue env index).snd = none) := by
  intro s env index dir e p v hs hlen
  have hnone : s.pins[index]? = none := List.getElem?_eq_none hlen
  refine ⟨?_, ?_, ?_⟩ <;>
    simp [GPIOSensor.configurePin, GPIOSensor.setPinValue, GPIOSensor.getPinValue,
      if_neg hs, hnone]

/-- Witness for C8 at a concrete one-pin sensor and out-of-range index. -/
theorem gpio_out_of_range_witness :
    ((⟨.INITIALIZED, .NONE, [⟨4, .INPUT, .NONE, .NONE⟩], []⟩ : GPIOSensor).getPinValue
        ⟨true, fun _ => 0⟩ 5).fst.lastError = .INVALID_PARAMETER :=
  (gpio_out_of_range ⟨.INITIALIZED, .NONE, [⟨4, .INPUT, .NONE, .NONE⟩], []⟩
    ⟨true, fun _ => 0⟩ 5 .INPUT .NONE .NONE false (by simp) (by simp)).2.2.1

/-- Claim C9: for every driver, `read` is a total operation callable in any
state: whenever the returned reading is not valid, a failure code (distinct
from the no-error value) is retrievable via `getLastError`, and in
particular a `read` before initialization yields an invalid reading with
NOT_INITIALIZED recorded. -/
theorem read_never_aborts :
    (∀ (s : I2CSensor) (env : BusEnv) (now : Nat),
        ((s.read env now).snd.valid = false → (s.read env now).fst.getLastError ≠ .NONE)
        ∧ (s.state = .UNINITIALIZED →
            (s.read env now).snd.valid = false ∧
              (s.read env now).fst.getLastError = .NOT_INITIALIZED))
    ∧ (∀ (s : SPISensor) (env : BusEnv) (now : Nat),
        ((s.read env now).snd.valid = false → (s.read env now).fst.getLastError ≠ .NONE)
        ∧ (s.state = .UNINITIALIZED →
            (s.read env now).snd.valid = false ∧
              (s.read env now).fst.getLastError = .NOT_INITIALIZED))
    ∧ (∀ (s : UARTSensor) (env : UARTEnv) (now : Nat),
        ((s.read env now).snd.valid = false → (s.read env now).fst.getLastError ≠ .NONE)
        ∧ (s.state = .UNINITIALIZED →
            (s.read env now).snd.valid = false ∧
              (s.read env now).fst.getLastError = .NOT_INITIALIZED))
    ∧ (∀ (s : GPIOSensor) (env : BusEnv) (now : Nat),
        ((s.read env now).snd.valid = false → (s.read env now).fst.getLastError ≠ .NONE)
        ∧ (s.state = .UNINITIALIZED →
            (s.read env now).snd.valid = false ∧
              (s.read env now).fst.getLastError = .NOT_INITIALIZED)) := by
  refine ⟨?_, ?_, ?_, ?_⟩
  · intro s env now
    constructor
    · by_cases hs : s.state = .UNINITIALIZED
      · simp [I2CSensor.read, I2CSensor.getLastError, hs]
      · by_cases he : env.ok = true
        · simp [I2CSensor.read, I2CSensor.getLastError, hs, he]
        · simp [I2CSensor.read, I2CSensor.getLastError, hs, he]
    · intro hs
      simp [I2CSensor.read, I2CSensor.getLastError, hs]
  · intro s env now
    constructor
    · by_cases hs : s.state = .UNINITIALIZED
      · simp [SPISensor.read, SPISensor.getLastError, hs]
      · by_cases he : env.ok = true
        · simp [SPISensor.read, SPISensor.getLastError, hs, he]
        · simp [SPISensor.read, SPISensor.getLastError, hs, he]
    · intro hs
      simp [SPISensor.read, SPISensor.getLastError, hs]
  · intro s env now
    constructor
    · by_cases hs : s.state = .UNINITIALIZED
      · simp [UARTSensor.read, UARTSensor.getLastError, hs]
      · by_cases he : env.ok = true
        · by_cases ha : env.arrivals = []
          · simp [UARTSensor.read, UARTSensor.getLastError, hs, he, ha]
          · simp [UARTSensor.read, UARTSensor.getLastError, hs, he, ha]
        · simp [UARTSensor.read, UARTSensor.getLastError, hs, he]
    · intro hs
      simp [UARTSensor.read, UARTSensor.getLastError, hs]
  · intro s env now
    constructor
    · by_cases hs : s.state = .UNINITIALIZED
      · simp [GPIOSensor.read, GPIOSensor.getLastError, hs]
      · by_cases he : env.ok = true
        · simp [GPIOSensor.read, GPIOSensor.getLastError, hs, he]
        · simp [GPIOSensor.read, GPIOSensor.getLastError, hs, he]
    · intro hs
      simp [GPIOSensor.read, GPIOSensor.getLastError, hs]

/-- Witness for C9 at a concrete uninitialized driver. -/
theorem read_never_aborts_witness :
    ((⟨.UNINITIALIZED, .NONE, 0, 0, []⟩ : I2CSensor).read
        ⟨true, fun _ => 0⟩ 17).snd.valid = false :=
  ((read_never_aborts.1 ⟨.UNINITIALIZED, .NONE, 0, 0, []⟩
    ⟨true, fun _ => 0⟩ 17).2 rfl).1

end Sensors

end IoTEdge

